import Mathlib

/-!
Verification of the cometary activity models in `src/models/activity.py`:
the Schleicher-Marcus phase function `schleicher_marcus`, the power-law
activity magnitude model `Hy`, and the linear-activity-index model `Hab`.
The Python functions are pure real-valued formulas built from `log10` and
`**`; we embed them over `ℝ`, rendering `np.log10` as `Real.logb 10` and
`10.0 ** x` as the real power `(10 : ℝ) ^ x`.
-/

open Real

noncomputable section

namespace Activity

/-- `schleicher_marcus` from `src/models/activity.py` (lines 37-45):
`log_Phi` is the quintic polynomial in the phase angle (degrees) with the
source's literal coefficients, and the result is `10.0 ** log_Phi`. -/
def schleicher_marcus (phase : ℝ) : ℝ :=
  (10 : ℝ) ^
    (-8.1755e-11 * phase ^ 5
      + 1.6782e-8 * phase ^ 4
      - 1.3820e-6 * phase ^ 3
      + 0.0002205 * phase ^ 2
      - 0.0185308 * phase
      + 0.00096156)

/-- `Hy` from `src/models/activity.py` (lines 85-90):
`H + 5*log10(rh*delta) - (2.5*y)*log10(rh) - 2.5*log10(schleicher_marcus(phase))`. -/
def Hy (H y rh delta phase : ℝ) : ℝ :=
  H + 5 * logb 10 (rh * delta)
    - (2.5 * y) * logb 10 rh
    - 2.5 * logb 10 (schleicher_marcus phase)

/-- `Hab` from `src/models/activity.py` (lines 133-134):
sets `y = -(a*rh + b)` and delegates to `Hy`. -/
def Hab (H a b rh delta phase : ℝ) : ℝ :=
  Hy H (-(a * rh + b)) rh delta phase

/-- The phase function exactly as the spec writes it in section 4.1:
`Φ = 10^(c5·α^5 + c4·α^4 + c3·α^3 + c2·α^2 + c1·α + c0)` with
`c5 = -8.1755e-11`, `c4 = 1.6782e-8`, `c3 = -1.3820e-6`, `c2 = 2.205e-4`,
`c1 = -1.85308e-2`, `c0 = 9.6156e-4`.  To be compared with the source's
`schleicher_marcus`. -/
def PhaseFunction (alpha : ℝ) : ℝ :=
  (10 : ℝ) ^
    (-8.1755e-11 * alpha ^ 5
      + 1.6782e-8 * alpha ^ 4
      + -1.3820e-6 * alpha ^ 3
      + 2.205e-4 * alpha ^ 2
      + -1.85308e-2 * alpha
      + 9.6156e-4)

/-- The source's polynomial coefficients agree with the spec's scientific
notation literals, so the two phase-function definitions coincide. -/
lemma phi_eq (alpha : ℝ) : schleicher_marcus alpha = PhaseFunction alpha := by
  unfold schleicher_marcus PhaseFunction
  congr 1
  ring

/-- The value of the phase-function logarithm at zero phase angle: the
polynomial collapses to its constant coefficient. -/
lemma logb_sm_zero : logb 10 (schleicher_marcus 0) = 0.00096156 := by
  have h : (-8.1755e-11 * (0 : ℝ) ^ 5
      + 1.6782e-8 * (0 : ℝ) ^ 4
      - 1.3820e-6 * (0 : ℝ) ^ 3
      + 0.0002205 * (0 : ℝ) ^ 2
      - 0.0185308 * (0 : ℝ)
      + 0.00096156) = 0.00096156 := by norm_num
  unfold schleicher_marcus
  rw [h, Real.logb_rpow (by norm_num) (by norm_num)]

/-- `logb 10 10 = 1` and `logb 10 100 = 2`, packaged for reuse. -/
lemma logb_ten_ten_hundred : logb 10 (10 : ℝ) = 1 ∧ logb 10 (100 : ℝ) = 2 := by
  have h1 : logb 10 (10 : ℝ) = 1 := Real.logb_self_eq_one (by norm_num)
  refine ⟨h1, ?_⟩
  rw [show (100 : ℝ) = 10 ^ (2 : ℕ) by norm_num, Real.logb_pow, h1]
  norm_num

end Activity

namespace Activity

/-- Claim C1: for all inputs with `rh > 0` and `delta > 0`, `Hy` equals
`H + 5*log10(rh*delta) - 2.5*y*log10(rh) - 2.5*log10(PhaseFunction(phase))`,
where `PhaseFunction` is the Schleicher-Marcus phase function of spec
section 4.1. -/
theorem Hy_spec_formula (H y rh delta phase : ℝ)
    (hrh : 0 < rh) (hdelta : 0 < delta) :
    Hy H y rh delta phase
      = H + 5 * logb 10 (rh * delta) - 2.5 * y * logb 10 rh
        - 2.5 * logb 10 (PhaseFunction phase) := by
  unfold Hy
  rw [phi_eq]

/-- Witness for C1 at `H = 1`, `y = 2`, `rh = 3`, `delta = 4`, `phase = 5`. -/
theorem Hy_spec_formula_witness :
    Hy 1 2 3 4 5
      = 1 + 5 * logb 10 (3 * 4) - 2.5 * 2 * logb 10 3
        - 2.5 * logb 10 (PhaseFunction 5) :=
  Hy_spec_formula 1 2 3 4 5 (by norm_num) (by norm_num)

/-- Claim C2: for every phase angle, `schleicher_marcus` is 10 raised to the
quintic polynomial with exactly the coefficients `c5 = -8.1755e-11`,
`c4 = 1.6782e-8`, `c3 = -1.3820e-6`, `c2 = 2.205e-4`, `c1 = -1.85308e-2`,
`c0 = 9.6156e-4`. -/
theorem schleicher_marcus_closed_form (alpha : ℝ) :
    schleicher_marcus alpha
      = (10 : ℝ) ^
          (-8.1755e-11 * alpha ^ 5
            + 1.6782e-8 * alpha ^ 4
            + -1.3820e-6 * alpha ^ 3
            + 2.205e-4 * alpha ^ 2
            + -1.85308e-2 * alpha
            + 9.6156e-4) :=
  phi_eq alpha

/-- Claim C3: `Hab H a b rh delta phase` equals `Hy H y rh delta phase` with
`y = -(a*rh + b)`; and the effective exponent depends on `rh`, so `Hab` is
not a fixed-`y` power law: with `a = 1`, `b = 0`, the exponent `y` matching
`Hab` at `rh = 10` undershoots `Hab` at `rh = 100`. -/
theorem Hab_eq_Hy_of_equivalent_exponent :
    (∀ H a b rh delta phase : ℝ,
        Hab H a b rh delta phase = Hy H (-(a * rh + b)) rh delta phase)
      ∧ ∀ y : ℝ, Hab 0 1 0 10 1 0 = Hy 0 y 10 1 0 →
          Hy 0 y 100 1 0 < Hab 0 1 0 100 1 0 := by
  have l2 := logb_ten_ten_hundred.2
  refine ⟨fun H a b rh delta phase => rfl, fun y h => ?_⟩
  unfold Hab Hy at h ⊢
  norm_num at h ⊢
  rw [l2]
  linarith

/-- Witness for C3: with the matched exponent `y = -10`, the fixed-`y`
power law undershoots `Hab` at `rh = 100`. -/
theorem Hab_eq_Hy_of_equivalent_exponent_witness :
    Hy 0 (-10) 100 1 0 < Hab 0 1 0 100 1 0 :=
  Hab_eq_Hy_of_equivalent_exponent.2 (-10) (by norm_num [Hab])

/-- Claim C4: for `rh > 0` and `delta > 0`, the inactive case `a = b = 0` of
`Hab` coincides exactly with the inactive case `y = 0` of `Hy`. -/
theorem Hab_inactive_eq_Hy_inactive (H rh delta phase : ℝ)
    (hrh : 0 < rh) (hdelta : 0 < delta) :
    Hab H 0 0 rh delta phase = Hy H 0 rh delta phase := by
  unfold Hab
  norm_num

/-- Witness for C4 at `H = 7`, `rh = 2`, `delta = 3`, `phase = 4`. -/
theorem Hab_inactive_eq_Hy_inactive_witness :
    Hab 7 0 0 2 3 4 = Hy 7 0 2 3 4 :=
  Hab_inactive_eq_Hy_inactive 7 2 3 4 (by norm_num) (by norm_num)

/-- Claim C5: for `rh > 0` and `delta > 0`, at `y = 0` and zero phase,
`Hy` reduces to `H + 5*log10(rh*delta) - 2.5*log10(PhaseFunction 0)`: the
power-law term vanishes identically, independent of `rh`. -/
theorem Hy_zero_y_reduces (H rh delta : ℝ) (hrh : 0 < rh) (hdelta : 0 < delta) :
    Hy H 0 rh delta 0
      = H + 5 * logb 10 (rh * delta) - 2.5 * logb 10 (PhaseFunction 0) := by
  unfold Hy
  rw [phi_eq]
  ring

/-- Witness for C5 at `H = 1`, `rh = 2`, `delta = 3`. -/
theorem Hy_zero_y_reduces_witness :
    Hy 1 0 2 3 0 = 1 + 5 * logb 10 (2 * 3) - 2.5 * logb 10 (PhaseFunction 0) :=
  Hy_zero_y_reduces 1 2 3 (by norm_num) (by norm_num)

/-- Counterexample to C6: at `H = 0`, `rh = 1`, the deviation of
`Hy 0 0 1 1 0` from `0 + 5*log10(1)` exceeds `1e-9` times the magnitude of
the claimed value (the deviation is `2.5 * 0.00096156`, about `2.4e-3`). -/
theorem Hy_unit_distance_not_within_1e9 :
    1e-9 * |(0 : ℝ) + 5 * logb 10 1| < |Hy 0 0 1 1 0 - (0 + 5 * logb 10 1)| := by
  unfold Hy
  rw [logb_sm_zero]
  norm_num

/-- Claim C6, amended: for all `H` and `rh > 0`, with `delta = 1` and
`phase = 0`, `Hy H 0 rh 1 0` equals `H + 5*log10(rh)` minus the constant
`2.5*log10(Phi(0)) = 2.5 * 0.00096156`, an offset of about `2.4e-3` mag:
within `0.003` absolute tolerance, but not within `1e-9` relative. -/
theorem Hy_unit_delta_zero_phase (H rh : ℝ) (hrh : 0 < rh) :
    Hy H 0 rh 1 0 = H + 5 * logb 10 rh - 2.5 * logb 10 (schleicher_marcus 0)
      ∧ |Hy H 0 rh 1 0 - (H + 5 * logb 10 rh)| < 0.003 := by
  have e : Hy H 0 rh 1 0
      = H + 5 * logb 10 rh - 2.5 * logb 10 (schleicher_marcus 0) := by
    unfold Hy
    rw [mul_one]
    ring
  refine ⟨e, ?_⟩
  rw [e, logb_sm_zero]
  rw [show H + 5 * logb 10 rh - 2.5 * 0.00096156 - (H + 5 * logb 10 rh)
      = -(2.5 * 0.00096156) by ring]
  rw [abs_neg, abs_of_pos (by norm_num)]
  norm_num

/-- Witness for the amended C6 at `H = 0`, `rh = 1`. -/
theorem Hy_unit_delta_zero_phase_witness :
    Hy 0 0 1 1 0 = 0 + 5 * logb 10 1 - 2.5 * logb 10 (schleicher_marcus 0)
      ∧ |Hy 0 0 1 1 0 - (0 + 5 * logb 10 1)| < 0.003 :=
  Hy_unit_delta_zero_phase 0 1 (by norm_num)

/-- Claim C7: for every phase angle, the phase function is strictly
positive (it is a real power of 10, hence positive and in particular a
well-defined finite real number). -/
theorem schleicher_marcus_pos (phase : ℝ) : 0 < schleicher_marcus phase :=
  Real.rpow_pos_of_pos (by norm_num) _

/-- Claim C9: `Hy` is linear in `H`, and the `y`-term and phase-function
term are additive offsets on the baseline `H + 5*log10(rh*delta)`. -/
theorem Hy_linear_in_H (H y rh delta phase : ℝ)
    (hrh : 0 < rh) (hdelta : 0 < delta) :
    Hy H y rh delta phase = H + Hy 0 y rh delta phase
      ∧ Hy H y rh delta phase
          = (H + 5 * logb 10 (rh * delta)) + (-(2.5 * y * logb 10 rh))
            + (-(2.5 * logb 10 (schleicher_marcus phase))) := by
  unfold Hy
  constructor <;> ring

/-- Witness for C9 at `H = 7`, `y = -1`, `rh = 2`, `delta = 3`, `phase = 4`. -/
theorem Hy_linear_in_H_witness :
    Hy 7 (-1) 2 3 4 = 7 + Hy 0 (-1) 2 3 4
      ∧ Hy 7 (-1) 2 3 4
          = (7 + 5 * logb 10 (2 * 3)) + (-(2.5 * (-1) * logb 10 2))
            + (-(2.5 * logb 10 (schleicher_marcus 4))) :=
  Hy_linear_in_H 7 (-1) 2 3 4 (by norm_num) (by norm_num)

/-- Claim C10: at unit heliocentric distance the activity parameters have
no effect: `Hy` gives the same value for any two exponents `y`, `y'` when
`rh = 1`, and `Hab` gives the same value for any two parameter pairs
`(a, b)`, `(a', b')` when `rh = 1`. -/
theorem unit_rh_activity_has_no_effect (H delta phase y y' a b a' b' : ℝ)
    (hdelta : 0 < delta) :
    Hy H y 1 delta phase = Hy H y' 1 delta phase
      ∧ Hab H a b 1 delta phase = Hab H a' b' 1 delta phase := by
  unfold Hab Hy
  simp only [Real.logb_one]
  constructor <;> ring

/-- Witness for C10 at `H = 5`, `delta = 2`, `phase = 3`, with exponents
`0` and `4`, and parameter pairs `(1, 2)` and `(-3, 7)`. -/
theorem unit_rh_activity_has_no_effect_witness :
    Hy 5 0 1 2 3 = Hy 5 4 1 2 3
      ∧ Hab 5 1 2 1 2 3 = Hab 5 (-3) 7 1 2 3 :=
  unit_rh_activity_has_no_effect 5 2 3 0 4 1 2 (-3) 7 (by norm_num)

end Activity
